import Mathlib

/-!
Verification development for the customer-satisfaction-system repository.

The backend (Node/Express + SQLite) stores customer reviews and derives
dashboard metrics from them.  This file gives a shallow embedding of the
relevant backend functions and proves or refutes the specification claims
about them.

Conventions of the embedding:
- JS numbers are modelled as rationals; counts as naturals.
- JS timestamps (milliseconds since the Unix epoch, as produced by
  Date.getTime()) are modelled as integers; the UTC calendar day of a
  timestamp t (what toISOString().split('T')[0] denotes) is the floor
  division t / 86400000, one integer per calendar day.
- Math.round(x) rounds half away from zero upward: floor (x + 1/2).
- Stateful route handlers are modelled as pure functions of the review
  collection they read.
-/

namespace CSS


/-- Embedding of JS Math.round: round to the nearest integer, halves up. -/
def jsRound (x : ℚ) : ℤ := ⌊x + 1 / 2⌋

/-- Embedding of the repeated JS idiom Math.round(x * 100) / 100
(round to 2 decimals). -/
def round2 (x : ℚ) : ℚ := (jsRound (x * 100) : ℚ) / 100

/-- The fields of a stored review that the metrics routes read
(src/backend/src/routes/metrics.js).  The createdAt column (an ISO
timestamp string in the database) is modelled by its timestamp value in
milliseconds since the epoch. -/
structure MReview where
  createdAt : ℤ
  rating : ℚ
  status : String
deriving DecidableEq, Repr

/-- UTC calendar day index of a millisecond timestamp: the day denoted by
new Date(t).toISOString().split('T')[0] in the source. -/
def utcDay (t : ℤ) : ℤ := Int.fdiv t 86400000

/-- One bucket of calculateDailyMetrics (metrics.js, the dayMetrics object
built in the loop).  The date is the day index of the bucket. -/
structure DayMetrics where
  date : ℤ
  reviewsSubmitted : ℕ
  reviewsApproved : ℕ
  reviewsPending : ℕ
  reviewsRejected : ℕ
  averageRating : ℚ
  fiveStarCount : ℕ
  interactions : ℕ
  escalations : ℕ
deriving DecidableEq, Repr

/-- The per-day filter of calculateDailyMetrics (metrics.js): the reviews
whose createdAt falls on UTC calendar day d.  In the source this is the
inline dayReviews filter comparing toISOString date strings. -/
def dayReviews (reviews : List MReview) (d : ℤ) : List MReview :=
  reviews.filter fun r => decide (utcDay r.createdAt = d)

/-- The bucket calculateDailyMetrics builds for one day (metrics.js,
loop body). -/
def dayMetricsFor (reviews : List MReview) (d : ℤ) : DayMetrics :=
  let day := dayReviews reviews d
  { date := d
    reviewsSubmitted := day.length
    reviewsApproved := (day.filter fun r => r.status == "approved").length
    reviewsPending := (day.filter fun r => r.status == "pending").length
    reviewsRejected := (day.filter fun r => r.status == "rejected").length
    averageRating :=
      if 0 < day.length then round2 (((day.map MReview.rating).sum) / day.length) else 0
    fiveStarCount := (day.filter fun r => decide (r.rating = 5)).length
    interactions := day.length
    escalations := (day.filter fun r => decide (r.rating ≤ 2)).length }

/-- Embedding of calculateDailyMetrics (metrics.js): one bucket per
calendar day from startDay to endDay inclusive, in order.  The source
iterates a Date cursor from startDate while it is at most endDate,
stepping one day at a time. -/
def calculateDailyMetrics (reviews : List MReview) (startDay endDay : ℤ) : List DayMetrics :=
  (List.range (endDay + 1 - startDay).toNat).map fun (i : ℕ) => dayMetricsFor reviews (startDay + (i : ℤ))

/-- The six tracked metric values of one period, as computed inline for
both periods in calculatePeriodComparison (metrics.js). -/
structure PeriodStats where
  totalReviews : ℚ
  averageRating : ℚ
  approvedReviews : ℚ
  pendingReviews : ℚ
  fiveStarReviews : ℚ
  lowRatingReviews : ℚ
deriving DecidableEq, Repr

/-- The current/previous statistics block of calculatePeriodComparison
(metrics.js); the source repeats this object literal for each period. -/
def periodStats (period : List MReview) : PeriodStats :=
  { totalReviews := period.length
    averageRating :=
      if 0 < period.length then ((period.map MReview.rating).sum) / period.length else 0
    approvedReviews := (period.filter fun r => r.status == "approved").length
    pendingReviews := (period.filter fun r => r.status == "pending").length
    fiveStarReviews := (period.filter fun r => decide (r.rating = 5)).length
    lowRatingReviews := (period.filter fun r => decide (r.rating ≤ 2)).length }

/-- Embedding of the inner calculateChange helper of
calculatePeriodComparison (metrics.js). -/
def calculateChange (curr prev : ℚ) : ℚ :=
  if prev = 0 then (if 0 < curr then 100 else 0)
  else round2 ((curr - prev) / prev * 100)

/-- The changes object of calculatePeriodComparison (metrics.js). -/
structure PeriodChanges where
  totalReviews : ℚ
  averageRating : ℚ
  approvedReviews : ℚ
  pendingReviews : ℚ
  fiveStarReviews : ℚ
  lowRatingReviews : ℚ
deriving DecidableEq, Repr

/-- Result shape of calculatePeriodComparison (metrics.js). -/
structure PeriodComparison where
  current : PeriodStats
  previous : PeriodStats
  changes : PeriodChanges
deriving DecidableEq, Repr

/-- Embedding of calculatePeriodComparison (metrics.js). -/
def calculatePeriodComparison (currentPeriod previousPeriod : List MReview) : PeriodComparison :=
  let current := periodStats currentPeriod
  let previous := periodStats previousPeriod
  { current := current
    previous := previous
    changes :=
      { totalReviews := calculateChange current.totalReviews previous.totalReviews
        averageRating := calculateChange current.averageRating previous.averageRating
        approvedReviews := calculateChange current.approvedReviews previous.approvedReviews
        pendingReviews := calculateChange current.pendingReviews previous.pendingReviews
        fiveStarReviews := calculateChange current.fiveStarReviews previous.fiveStarReviews
        lowRatingReviews := calculateChange current.lowRatingReviews previous.lowRatingReviews } }

/-- The current-period filter of the metrics summary route (metrics.js,
router.get summary): reviews whose createdAt lies in the inclusive
millisecond window. -/
def currentPeriodReviews (allReviews : List MReview) (startMs endMs : ℤ) : List MReview :=
  allReviews.filter fun r => decide (startMs ≤ r.createdAt) && decide (r.createdAt ≤ endMs)

/-- The customerSentiment object of the metrics summary route
(metrics.js, router.get summary). -/
structure CustomerSentiment where
  positive : ℕ
  neutral : ℕ
  negative : ℕ
deriving DecidableEq, Repr

/-- Embedding of the customerSentiment computation of the metrics summary
route (metrics.js, router.get summary). -/
def customerSentiment (reviews : List MReview) : CustomerSentiment :=
  { positive := (reviews.filter fun r => decide (4 ≤ r.rating)).length
    neutral := (reviews.filter fun r => decide (r.rating = 3)).length
    negative := (reviews.filter fun r => decide (r.rating ≤ 2)).length }

/-- Validation result shape of the review model
(src/backend/src/models/review.js). -/
structure ValidationResult where
  isValid : Bool
  errors : List String
deriving DecidableEq, Repr

/-- A JS value as far as the duck-typed validation of review.js
distinguishes values: undefined, null, strings, numbers, booleans.
An absent object property reads as undefined. -/
inductive JSVal where
  | undef : JSVal
  | null : JSVal
  | str : String → JSVal
  | num : ℚ → JSVal
  | boolean : Bool → JSVal
deriving DecidableEq, Repr

/-- JS truthiness of a value, as used by the bang and guard checks of
validateReviewData. -/
def JSVal.truthy : JSVal → Bool
  | .undef => false
  | .null => false
  | .str s => !s.isEmpty
  | .num q => decide (q ≠ 0)
  | .boolean b => b

/-- The typeof x === 'string' test. -/
def JSVal.isStr : JSVal → Bool
  | .str _ => true
  | _ => false

/-- The test ['pending', 'approved', 'rejected'].includes(x) of review.js;
on a non-string value the includes test is false. -/
def JSVal.isStatusEnum : JSVal → Bool
  | .str s => s == "pending" || s == "approved" || s == "rejected"
  | _ => false

/-- The request body fields validateReviewData reads
(src/backend/src/models/review.js); each is an arbitrary JS value. -/
structure ReviewInput where
  customerId : JSVal
  customerName : JSVal
  rating : JSVal
  title : JSVal
  comment : JSVal
  status : JSVal
deriving DecidableEq, Repr

/-- Embedding of validateReviewData (review.js lines 67-103).  Each check
appends its message to the error list exactly as the source pushes it;
the function is total, so it never throws. -/
def validateReviewData (reviewData : ReviewInput) : ValidationResult :=
  let errors :=
    (if !(reviewData.customerId.truthy && reviewData.customerId.isStr) then
      ["customerId is required and must be a string"] else []) ++
    (if !(reviewData.customerName.truthy && reviewData.customerName.isStr) then
      ["customerName is required and must be a string"] else []) ++
    (if !(reviewData.title.truthy && reviewData.title.isStr) then
      ["title is required and must be a string"] else []) ++
    (if !(reviewData.comment.truthy && reviewData.comment.isStr) then
      ["comment is required and must be a string"] else []) ++
    (match reviewData.rating with
     | .undef => ["rating is required"]
     | .null => ["rating is required"]
     | .num q => if q < 1 ∨ 5 < q then ["rating must be a number between 1 and 5"] else []
     | _ => ["rating must be a number between 1 and 5"]) ++
    (if reviewData.status.truthy && !reviewData.status.isStatusEnum then
      ["status must be one of: pending, approved, rejected"] else [])
  { isValid := errors.isEmpty, errors := errors }

/-- A stored review row (src/backend/src/models/review.js and the SQLite
schema of database.js).  The rating column is INTEGER with a CHECK
constraint, so it is modelled as an integer; timestamps are the ISO
strings the database stores. -/
structure Review where
  id : String
  customerId : String
  customerName : String
  rating : ℤ
  title : String
  comment : String
  status : String
  createdAt : String
  updatedAt : String
deriving DecidableEq, Repr

/-- A partial update body for PUT /api/reviews/:id.  A field is none when
the property is absent from the body.  The id and createdAt keys may also
appear in a body (nothing strips them), so they are modelled too.  An
updatedAt key in the body would be overwritten by the spread order of
updateReview, so it is not modelled. -/
structure UpdateData where
  id : Option String
  customerId : Option String
  customerName : Option String
  rating : Option ℤ
  title : Option String
  comment : Option String
  status : Option String
  createdAt : Option String
deriving DecidableEq, Repr

/-- Embedding of validateUpdateData (review.js lines 111-145).  In this
typed embedding the typeof checks of the source cannot fail, so only the
rating range check and the status enum check remain. -/
def validateUpdateData (updateData : UpdateData) : ValidationResult :=
  let errors :=
    (match updateData.rating with
     | some n => if n < 1 ∨ 5 < n then ["rating must be a number between 1 and 5"] else []
     | none => []) ++
    (match updateData.status with
     | some s =>
        if s == "pending" || s == "approved" || s == "rejected" then []
        else ["status must be one of: pending, approved, rejected"]
     | none => [])
  { isValid := errors.isEmpty, errors := errors }

/-- Embedding of updateReview (review.js lines 53-59): object spread of
the existing review, then the update data, then a fresh updatedAt.  The
now argument stands for new Date().toISOString(). -/
def updateReview (existingReview : Review) (updateData : UpdateData) (now : String) : Review :=
  { id := updateData.id.getD existingReview.id
    customerId := updateData.customerId.getD existingReview.customerId
    customerName := updateData.customerName.getD existingReview.customerName
    rating := updateData.rating.getD existingReview.rating
    title := updateData.title.getD existingReview.title
    comment := updateData.comment.getD existingReview.comment
    status := updateData.status.getD existingReview.status
    createdAt := updateData.createdAt.getD existingReview.createdAt
    updatedAt := now }

/-- Embedding of updateReviewById (dataService.js lines 117-139).  The
prepared UPDATE statement sets the six domain columns and updatedAt on
every row whose id matches; the id and createdAt columns are not in the
SET list.  Zero changed rows is reported as null (none here). -/
def updateReviewById (store : List Review) (id : String) (updatedReview : Review) :
    Option (List Review) :=
  if store.all fun row => row.id != id then none
  else some (store.map fun row =>
    if row.id == id then
      { row with
        customerId := updatedReview.customerId
        customerName := updatedReview.customerName
        rating := updatedReview.rating
        title := updatedReview.title
        comment := updatedReview.comment
        status := updatedReview.status
        updatedAt := updatedReview.updatedAt }
    else row)

/-- Embedding of .replace of a global quote regex with a doubled quote
(export.js lines 101-102), at the character level. -/
def escapeQuotes (cs : List Char) : List Char :=
  cs.foldr (fun c acc => if c = '"' then '"' :: '"' :: acc else c :: acc) []

/-- String wrapper for escapeQuotes. -/
def escapeQuotesStr (s : String) : String := String.mk (escapeQuotes s.data)

/-- Wrapping of a CSV field in double quotes, as the template literals of
convertToCSV do. -/
def quoteField (s : String) : String := "\"" ++ s ++ "\""

/-- JS Array.prototype.join with a comma separator. -/
def joinComma : List String → String
  | [] => ""
  | [s] => s
  | s :: rest => s ++ "," ++ joinComma rest

/-- One data row of convertToCSV (export.js lines 96-106): every string
field is wrapped in double quotes; only title and comment get their inner
quotes doubled; rating is emitted bare. -/
def csvRow (review : Review) : String :=
  joinComma
    [quoteField review.id,
     quoteField review.customerId,
     quoteField review.customerName,
     toString review.rating,
     quoteField (escapeQuotesStr review.title),
     quoteField (escapeQuotesStr review.comment),
     quoteField review.status,
     quoteField review.createdAt,
     quoteField review.updatedAt]

/-- The fixed header row of convertToCSV. -/
def csvHeader : String := "id,customerId,customerName,rating,title,comment,status,createdAt,updatedAt"

/-- Embedding of convertToCSV (export.js lines 75-110): header plus one
row per review, joined with newlines; an empty collection yields the
header row with a trailing newline. -/
def convertToCSV (reviews : List Review) : String :=
  if reviews.isEmpty then csvHeader ++ "\n"
  else String.intercalate "\n" (csvHeader :: reviews.map csvRow)

/-- An RFC-4180 style parser for one CSV record, used to state the
round-trip property of the spec: fields are separated by commas, a field
may be wrapped in double quotes, and inside quotes a doubled quote
denotes a literal quote character.  The first argument says whether the
scanner is inside quotes, the second accumulates the current field in
reverse. -/
def csvScan : Bool → List Char → List Char → List String
  | _, acc, [] => [String.mk acc.reverse]
  | true, acc, c :: rest =>
    if c = '"' then
      match rest with
      | '"' :: rest2 => csvScan true ('"' :: acc) rest2
      | [] => [String.mk acc.reverse]
      | c2 :: rest2 => csvScan false acc (c2 :: rest2)
    else csvScan true (c :: acc) rest
  | false, acc, c :: rest =>
    if c = ',' then String.mk acc.reverse :: csvScan false [] rest
    else if c = '"' then csvScan true acc rest
    else csvScan false (c :: acc) rest

/-- Parse one CSV record into its field values. -/
def parseCSVRecord (s : String) : List String := csvScan false [] s.data

/-- The character-level shape of a quoted CSV field. -/
def quoteData (cs : List Char) : List Char := '"' :: (cs ++ ['"'])

/-- C2 as stated: parsing an exported CSV row reproduces the nine field
values of the review for every review, including reviews whose
customerName, title or comment contain embedded double quotes. -/
def csvRoundTripClaim : Prop :=
  ∀ r : Review,
    parseCSVRecord (csvRow r) =
      [r.id, r.customerId, r.customerName, toString r.rating, r.title, r.comment, r.status,
       r.createdAt, r.updatedAt]

/-- Helper for JS String.includes semantics: does needle occur as a
contiguous run inside hay? -/
def startsList : List Char → List Char → Bool
  | [], _ => true
  | _ :: _, [] => false
  | c :: cs, d :: ds => c == d && startsList cs ds

/-- JS hay.includes(needle) at the character level. -/
def hasSub : List Char → List Char → Bool
  | hay, needle =>
    match hay with
    | [] => needle.isEmpty
    | _ :: rest => startsList needle hay || hasSub rest needle

/-- JS hay.includes(needle) on strings. -/
def strIncludes (hay needle : String) : Bool := hasSub hay.data needle.data

/-- JS String.prototype.toLowerCase at the character level. -/
def toLowerChars (cs : List Char) : List Char := cs.map Char.toLower

/-- The whitespace characters JS String.prototype.trim strips (the
common ASCII ones). -/
def isJSWhitespace (c : Char) : Bool := c == ' ' || c == '\t' || c == '\n' || c == '\r'

/-- JS String.prototype.trim at the character level. -/
def trimChars (cs : List Char) : List Char :=
  ((cs.dropWhile isJSWhitespace).reverse.dropWhile isJSWhitespace).reverse

/-- JS String.prototype.split with a one-character separator at the
character level: splitting the empty string yields one empty field. -/
def splitOnChar (sep : Char) : List Char → List (List Char)
  | [] => [[]]
  | c :: rest =>
    if c = sep then [] :: splitOnChar sep rest
    else
      match splitOnChar sep rest with
      | [] => [[c]]
      | f :: fs => (c :: f) :: fs

/-- Embedding of parseAcceptHeader (export.js lines 166-184).  A missing
header is none; an empty header string is falsy and also yields json.
The candidate list is the lower-cased header split on commas, each
candidate trimmed; the format checks are substring tests in the fixed
order csv, xml, json. -/
def parseAcceptHeader (acceptHeader : Option String) : String :=
  match acceptHeader with
  | none => "json"
  | some h =>
    if h = "" then "json"
    else
      let accepts := (splitOnChar ',' (toLowerChars h.data)).map trimChars
      if accepts.any fun t => hasSub t "text/csv".data || hasSub t "application/csv".data then
        "csv"
      else if accepts.any fun t =>
          hasSub t "application/xml".data || hasSub t "text/xml".data then
        "xml"
      else if accepts.any fun t => hasSub t "application/json".data then
        "json"
      else "json"

/-- A record of the usage details table, as built by
transformReviewsForDetailsTable (src/backend/src/routes/usage.js
lines 19-37). -/
structure DetailRecord where
  id : String
  owner : String
  customerId : String
  status : String
  rating : ℤ
  title : String
  comment : String
  costs : String
  region : String
  stability : String
  lastEdited : String
  createdAt : String
  sentiment : String
  priority : String
deriving DecidableEq, Repr

/-- The per-review mapping of transformReviewsForDetailsTable (usage.js).
The costs and region values are produced by Math.random in the source;
they enter here as explicit arguments, one pair per record. -/
def transformReview (review : Review) (costs region : String) : DetailRecord :=
  { id := review.id
    owner := review.customerName
    customerId := review.customerId
    status := review.status
    rating := review.rating
    title := review.title
    comment := review.comment
    costs := costs
    region := region
    stability :=
      if 4 ≤ review.rating then "Stable" else if 3 ≤ review.rating then "Warning" else "Critical"
    lastEdited := review.updatedAt
    createdAt := review.createdAt
    sentiment :=
      if 4 ≤ review.rating then "Positive" else if review.rating = 3 then "Neutral" else "Negative"
    priority :=
      if review.rating ≤ 2 then "High" else if review.rating = 3 then "Medium" else "Low" }

/-- Embedding of transformReviewsForDetailsTable (usage.js lines 19-37);
env supplies the Math.random draws (costs, region) for each position. -/
def transformReviewsForDetailsTable (reviews : List Review) (env : ℕ → String × String) :
    List DetailRecord :=
  reviews.enum.map fun pr => transformReview pr.2 (env pr.1).1 (env pr.1).2

/-- Query parameters of GET /api/usage/details (usage.js lines 61-75).
A missing query parameter is none; limit and offset carry their parsed
numeric defaults 50 and 0. -/
structure DetailsParams where
  status : Option String
  rating : Option ℤ
  customerId : Option String
  owner : Option String
  region : Option String
  stability : Option String
  sentiment : Option String
  priority : Option String
  search : Option String
  limit : ℕ
  offset : ℕ
  sortBy : String
  sortOrder : String

/-- Guard for the JS truthiness tests on query parameters: an absent
parameter and an empty string are both falsy. -/
def presentParam : Option String → Option String
  | some s => if s.isEmpty then none else some s
  | none => none

/-- Embedding of the WHERE clause of getReviewsWithFilters
(dataService.js lines 168-221) as used by the details route: exact match
on status, rating and customerId when the option is truthy.  The list is
taken in the order the store query returns it (ORDER BY createdAt DESC);
the order is opaque to the claims below. -/
def getReviewsWithFilters (store : List Review) (status : Option String) (rating : Option ℤ)
    (customerId : Option String) : List Review :=
  let s1 := match presentParam status with
    | some s => store.filter fun r => r.status == s
    | none => store
  let s2 := match rating with
    | some n => if n = 0 then s1 else s1.filter fun r => r.rating == n
    | none => s1
  match presentParam customerId with
  | some c => s2.filter fun r => r.customerId == c
  | none => s2

/-- One guarded filter step of the details route: when the query
parameter is truthy, keep the records matching it; otherwise leave the
list unchanged. -/
def condFilter (param : Option String) (records : List DetailRecord)
    (pred : String → DetailRecord → Bool) : List DetailRecord :=
  match presentParam param with
  | some x => records.filter (pred x)
  | none => records

/-- The in-route filters of GET /api/usage/details (usage.js lines
96-135): substring match on owner, exact match on region, stability,
sentiment and priority, and the free-text search over title, comment,
owner and customerId, all guarded by parameter truthiness, in source
order. -/
def applyDetailFilters (records : List DetailRecord) (p : DetailsParams) : List DetailRecord :=
  let r1 := condFilter p.owner records fun o rec => strIncludes rec.owner.toLower o.toLower
  let r2 := condFilter p.region r1 fun x rec => rec.region == x
  let r3 := condFilter p.stability r2 fun x rec => rec.stability == x
  let r4 := condFilter p.sentiment r3 fun x rec => rec.sentiment == x
  let r5 := condFilter p.priority r4 fun x rec => rec.priority == x
  condFilter p.search r5 fun s rec =>
    strIncludes rec.title.toLower s.toLower ||
    strIncludes rec.comment.toLower s.toLower ||
    strIncludes rec.owner.toLower s.toLower ||
    strIncludes rec.customerId.toLower s.toLower

/-- String-valued field access rec[sortBy] for the generic comparator
branch of the details sort (usage.js lines 138-162); none models a JS
undefined lookup.  The rating, createdAt, lastEdited and costs names are
handled by their own branches before this is consulted. -/
def detailFieldStr (rec : DetailRecord) : String → Option String
  | "id" => some rec.id
  | "owner" => some rec.owner
  | "customerId" => some rec.customerId
  | "status" => some rec.status
  | "title" => some rec.title
  | "comment" => some rec.comment
  | "costs" => some rec.costs
  | "region" => some rec.region
  | "stability" => some rec.stability
  | "lastEdited" => some rec.lastEdited
  | "createdAt" => some rec.createdAt
  | "sentiment" => some rec.sentiment
  | "priority" => some rec.priority
  | _ => none

/-- The ascending half of the details sort comparator (usage.js lines
138-162): detailLE a b is true when the comparator puts a at or before b,
i.e. when the compared value of a is not greater than that of b.
The createdAt and lastEdited branch goes through JS Date parsing and the
costs branch through parseFloat after stripping a dollar sign; those two
conversions are abstract parameters dateVal and floatVal here.  The
rating branch is parseInt on an integer rating, the identity.  A sortBy
naming no field compares two undefined values, every comparison a tie. -/
def detailLE (dateVal : String → ℤ) (floatVal : String → ℚ) (sortBy : String)
    (a b : DetailRecord) : Bool :=
  if sortBy == "createdAt" || sortBy == "lastEdited" then
    decide (dateVal ((detailFieldStr a sortBy).getD "") ≤ dateVal ((detailFieldStr b sortBy).getD ""))
  else if sortBy == "rating" then
    decide (a.rating ≤ b.rating)
  else if sortBy == "costs" then
    decide (floatVal a.costs ≤ floatVal b.costs)
  else
    match detailFieldStr a sortBy, detailFieldStr b sortBy with
    | some x, some y => !decide (y.toLower < x.toLower)
    | _, _ => true

/-- The full comparator relation of the details sort: ascending when
sortOrder is asc, otherwise descending (the source defaults to desc). -/
def detailSortRel (dateVal : String → ℤ) (floatVal : String → ℚ) (sortBy sortOrder : String)
    (a b : DetailRecord) : Bool :=
  if sortOrder == "asc" then detailLE dateVal floatVal sortBy a b
  else detailLE dateVal floatVal sortBy b a

/-- Stable insertion of an element into a sorted list: a is placed before
the first b with le a b.  Together with stableSortBy this is the
behaviour ECMAScript guarantees for Array.prototype.sort with a
consistent comparator (le a b meaning comparator(a, b) <= 0). -/
def orderedInsert (le : α → α → Bool) (a : α) : List α → List α
  | [] => [a]
  | b :: l => if le a b then a :: b :: l else b :: orderedInsert le a l

/-- Stable sort by a boolean comparator relation; the embedding of the
in-place Array.prototype.sort call of the details route. -/
def stableSortBy (le : α → α → Bool) : List α → List α
  | [] => []
  | x :: l => orderedInsert le x (stableSortBy le l)

/-- Response data of GET /api/usage/details (usage.js lines 195-220):
the paginated records, the pagination block and the statistics block.
Breakdown objects are modelled as count functions by key. -/
structure DetailsResponse where
  records : List DetailRecord
  paginationTotal : ℕ
  paginationLimit : ℕ
  paginationOffset : ℕ
  hasMore : Bool
  statsTotal : ℕ
  statusBreakdown : String → ℕ
  sentimentBreakdown : String → ℕ
  stabilityBreakdown : String → ℕ
  regionBreakdown : String → ℕ
  averageRating : ℚ

/-- The transformedRecords list of the details handler after all filters
and before sorting and pagination (usage.js lines 93-135): store-level
filters, transformation, in-route filters. -/
def detailsFullFiltered (store : List Review) (env : ℕ → String × String)
    (p : DetailsParams) : List DetailRecord :=
  applyDetailFilters
    (transformReviewsForDetailsTable (getReviewsWithFilters store p.status p.rating p.customerId)
      env) p

/-- Embedding of the GET /api/usage/details handler (usage.js lines
58-228): the filtered list, sort, pagination slice, and statistics
computed from the full filtered list (which the in-place sort has
reordered but not changed as a set). -/
def detailsEndpoint (dateVal : String → ℤ) (floatVal : String → ℚ) (store : List Review)
    (env : ℕ → String × String) (p : DetailsParams) : DetailsResponse :=
  let filtered := detailsFullFiltered store env p
  let sorted := stableSortBy (detailSortRel dateVal floatVal p.sortBy p.sortOrder) filtered
  let paginated := (sorted.drop p.offset).take p.limit
  { records := paginated
    paginationTotal := sorted.length
    paginationLimit := p.limit
    paginationOffset := p.offset
    hasMore := decide (p.offset + p.limit < sorted.length)
    statsTotal := sorted.length
    statusBreakdown := fun k => (sorted.filter fun rec => rec.status == k).length
    sentimentBreakdown := fun k => (sorted.filter fun rec => rec.sentiment == k).length
    stabilityBreakdown := fun k => (sorted.filter fun rec => rec.stability == k).length
    regionBreakdown := fun k => (sorted.filter fun rec => rec.region == k).length
    averageRating :=
      if 0 < sorted.length then
        round2 (((sorted.map fun rec => (rec.rating : ℚ)).sum) / sorted.length)
      else 0 }

/-- The three reviews of the spec's worked example, all on UTC day 19358
(2023-01-01), with ratings 5, 2, 5. -/
def exampleDayReviews : List MReview :=
  [⟨19358 * 86400000 + 36000000, 5, "approved"⟩,
   ⟨19358 * 86400000 + 50000000, 2, "pending"⟩,
   ⟨19358 * 86400000 + 60000000, 5, "approved"⟩]

/-- Calendar day index of a millisecond timestamp in a local timezone
lying offsetMinutes east of UTC (what the local-date accessors of a JS
Date denote under that zone). -/
def localDay (offsetMinutes t : ℤ) : ℤ := Int.fdiv (t + offsetMinutes * 60000) 86400000

/-- C4 as stated: for every timezone, every review counted by
calculateDailyMetrics contributes to the bucket of the local calendar
day of its createdAt timestamp. -/
def dailyMetricsLocalDayClaim : Prop :=
  ∀ (offsetMinutes : ℤ) (reviews : List MReview) (s e d : ℤ) (r : MReview),
    r ∈ reviews → s ≤ d → d ≤ e →
    (r ∈ dayReviews reviews d ↔ localDay offsetMinutes r.createdAt = d)

/-- Spec-side predicate: the value is a non-empty string. -/
def nonEmptyStrOK : JSVal → Bool
  | .str s => !s.isEmpty
  | _ => false

/-- Spec-side predicate of C5 as stated: the rating is present and an
integer in the range 1..5. -/
def ratingIntOK : JSVal → Bool
  | .num q => decide (q.den = 1) && decide (1 ≤ q) && decide (q ≤ 5)
  | _ => false

/-- Spec-side predicate of C5 as stated: the status, if present, is one
of the three enum values. -/
def statusClaimOK : JSVal → Bool
  | .undef => true
  | .str s => s == "pending" || s == "approved" || s == "rejected"
  | _ => false

/-- C5 as stated: create validation succeeds exactly when the four text
fields are present non-empty strings, the rating is present and an
integer in 1..5, and the status, if present, is a valid enum value. -/
def validateCreateClaim : Prop :=
  ∀ d : ReviewInput,
    (validateReviewData d).isValid = true ↔
      (nonEmptyStrOK d.customerId = true ∧ nonEmptyStrOK d.customerName = true ∧
       nonEmptyStrOK d.title = true ∧ nonEmptyStrOK d.comment = true ∧
       ratingIntOK d.rating = true ∧ statusClaimOK d.status = true)

/-- The non-integer rational 5/2, built without normalization so that
kernel evaluation stays cheap. -/
def q52 : ℚ := ⟨5, 2, by norm_num, by norm_num⟩

/-- Strict descending comparison of detail records by rating. -/
def ratingGT (a b : DetailRecord) : Prop := b.rating < a.rating

instance : IsAntisymm DetailRecord ratingGT :=
  ⟨fun _ _ h h' => absurd (lt_trans h h') (lt_irrefl _)⟩

/-- C9 as stated: sorting any filtered set of detail records by rating
descending always yields the exact reverse of sorting it ascending. -/
def ratingSortReverseClaim : Prop :=
  ∀ (dateVal : String → ℤ) (floatVal : String → ℚ) (records : List DetailRecord),
    stableSortBy (detailSortRel dateVal floatVal "rating" "desc") records =
      (stableSortBy (detailSortRel dateVal floatVal "rating" "asc") records).reverse

/-- Two detail records sharing a rating, differing only in id. -/
def recA : DetailRecord :=
  ⟨"a", "o", "c", "approved", 5, "t", "cm", "$1", "US-East", "Stable", "d", "d", "Positive",
    "Low"⟩

/-- Second record of the tie pair. -/
def recB : DetailRecord := { recA with id := "b" }

/-- C3: for every tracked comparison metric, the summary's percentage
change equals (curr - prev) / prev * 100 rounded to 2 decimals when
prev is nonzero; when prev is zero the change is 100 if curr is positive
and 0 if curr is zero, with no division-by-zero error (the function is
total); in particular prev = 0, curr = 5 yields 100 and prev = 0,
curr = 0 yields 0. -/
theorem claim_C3_period_comparison_changes
    (currentPeriod previousPeriod : List MReview) :
    (∀ curr prev : ℚ,
      (prev ≠ 0 → calculateChange curr prev = round2 ((curr - prev) / prev * 100)) ∧
      (prev = 0 → 0 < curr → calculateChange curr prev = 100) ∧
      (prev = 0 → curr = 0 → calculateChange curr prev = 0)) ∧
    (calculatePeriodComparison currentPeriod previousPeriod).changes =
      { totalReviews :=
          calculateChange ((currentPeriod.length : ℚ)) ((previousPeriod.length : ℚ))
        averageRating :=
          calculateChange
            (if 0 < currentPeriod.length then
              ((currentPeriod.map MReview.rating).sum) / currentPeriod.length else 0)
            (if 0 < previousPeriod.length then
              ((previousPeriod.map MReview.rating).sum) / previousPeriod.length else 0)
        approvedReviews :=
          calculateChange
            ((currentPeriod.filter fun r => r.status == "approved").length)
            ((previousPeriod.filter fun r => r.status == "approved").length)
        pendingReviews :=
          calculateChange
            ((currentPeriod.filter fun r => r.status == "pending").length)
            ((previousPeriod.filter fun r => r.status == "pending").length)
        fiveStarReviews :=
          calculateChange
            ((currentPeriod.filter fun r => decide (r.rating = 5)).length)
            ((previousPeriod.filter fun r => decide (r.rating = 5)).length)
        lowRatingReviews :=
          calculateChange
            ((currentPeriod.filter fun r => decide (r.rating ≤ 2)).length)
            ((previousPeriod.filter fun r => decide (r.rating ≤ 2)).length) } ∧
    calculateChange 5 0 = 100 ∧ calculateChange 0 0 = 0 := by
  refine ⟨fun curr prev => ⟨fun hp => ?_, fun hp hc => ?_, fun hp hc => ?_⟩, ?_, ?_, ?_⟩
  · simp [calculateChange, hp]
  · simp [calculateChange, hp, hc]
  · simp [calculateChange, hp, hc]
  · rfl
  · norm_num [calculateChange]
  · norm_num [calculateChange]

/-- Witness for C3: evaluates the change formula at concrete values,
exercising both the nonzero-previous branch and the zero-previous
branches. -/
theorem claim_C3_period_comparison_changes_witness :
    (2 : ℚ) ≠ 0 ∧ calculateChange 1 2 = round2 ((1 - 2) / 2 * 100) :=
  ⟨by norm_num, ((claim_C3_period_comparison_changes [] []).1 1 2).1 (by norm_num)⟩

/-- Helper: on a list whose ratings all lie in the integer range 1..5,
the three sentiment filters partition the list. -/
theorem sentiment_filter_partition (l : List MReview)
    (h : ∀ r ∈ l, r.rating ∈ ([1, 2, 3, 4, 5] : List ℚ)) :
    (l.filter fun r => decide (4 ≤ r.rating)).length +
      (l.filter fun r => decide (r.rating = 3)).length +
      (l.filter fun r => decide (r.rating ≤ 2)).length = l.length := by
  induction l with
  | nil => simp
  | cons r t ih =>
    have hr : r.rating ∈ ([1, 2, 3, 4, 5] : List ℚ) := h r (by simp)
    have ht := ih fun x hx => h x (List.mem_cons_of_mem r hx)
    simp only [List.mem_cons, List.mem_singleton, List.not_mem_nil, or_false] at hr
    rcases hr with h1 | h1 | h1 | h1 | h1 <;>
      simp only [List.filter_cons, h1, List.length_cons] <;> norm_num <;> omega

/-- C10: provided every stored rating is an integer in 1..5, the
customerSentiment counts of the metrics summary partition the
current-period reviews: each review falls in exactly one of positive
(rating at least 4), neutral (rating 3), negative (rating at most 2),
and the three counts sum to the period's total review count, for every
millisecond window. -/
theorem claim_C10_sentiment_partition (allReviews : List MReview) (startMs endMs : ℤ)
    (h : ∀ r ∈ allReviews, r.rating ∈ ([1, 2, 3, 4, 5] : List ℚ)) :
    (customerSentiment (currentPeriodReviews allReviews startMs endMs)).positive +
        (customerSentiment (currentPeriodReviews allReviews startMs endMs)).neutral +
        (customerSentiment (currentPeriodReviews allReviews startMs endMs)).negative =
      (currentPeriodReviews allReviews startMs endMs).length ∧
    ∀ r ∈ currentPeriodReviews allReviews startMs endMs,
      (4 ≤ r.rating ∧ ¬r.rating = 3 ∧ ¬r.rating ≤ 2) ∨
      (r.rating = 3 ∧ ¬4 ≤ r.rating ∧ ¬r.rating ≤ 2) ∨
      (r.rating ≤ 2 ∧ ¬4 ≤ r.rating ∧ ¬r.rating = 3) := by
  have hsub : ∀ r ∈ currentPeriodReviews allReviews startMs endMs, r ∈ allReviews := by
    intro r hr
    exact (List.mem_filter.mp hr).1
  constructor
  · exact sentiment_filter_partition _ fun r hr => h r (hsub r hr)
  · intro r hr
    have hr5 : r.rating ∈ ([1, 2, 3, 4, 5] : List ℚ) := h r (hsub r hr)
    simp only [List.mem_cons, List.mem_singleton, List.not_mem_nil, or_false] at hr5
    rcases hr5 with h1 | h1 | h1 | h1 | h1 <;> rw [h1] <;> norm_num

/-- Witness for C10: a concrete store of three reviews, one per sentiment
bucket, over a window containing all of them. -/
theorem claim_C10_sentiment_partition_witness :
    (customerSentiment (currentPeriodReviews
        [⟨0, 5, "approved"⟩, ⟨1, 3, "pending"⟩, ⟨2, 1, "rejected"⟩] 0 10)).positive +
      (customerSentiment (currentPeriodReviews
        [⟨0, 5, "approved"⟩, ⟨1, 3, "pending"⟩, ⟨2, 1, "rejected"⟩] 0 10)).neutral +
      (customerSentiment (currentPeriodReviews
        [⟨0, 5, "approved"⟩, ⟨1, 3, "pending"⟩, ⟨2, 1, "rejected"⟩] 0 10)).negative =
    (currentPeriodReviews
        [⟨0, 5, "approved"⟩, ⟨1, 3, "pending"⟩, ⟨2, 1, "rejected"⟩] 0 10).length :=
  (claim_C10_sentiment_partition
    [⟨0, 5, "approved"⟩, ⟨1, 3, "pending"⟩, ⟨2, 1, "rejected"⟩] 0 10 (by decide)).1

/-- Helper: composing two decidable filters filters the conjunction. -/
theorem filter_filter_decide (l : List α) (p q : α → Prop) [DecidablePred p] [DecidablePred q] :
    ((l.filter fun a => decide (p a)).filter fun a => decide (q a)) =
      l.filter fun a => decide (p a ∧ q a) := by
  induction l with
  | nil => rfl
  | cons a t ih =>
    by_cases hp : p a <;> by_cases hq : q a <;>
      simp [List.filter_cons, hp, hq, ih]

/-- Helper: composing two decidable filters counts the conjunction. -/
theorem filter_and_length (l : List α) (p q : α → Prop) [DecidablePred p] [DecidablePred q] :
    ((l.filter fun a => decide (p a)).filter fun a => decide (q a)).length =
      l.countP fun a => decide (p a ∧ q a) := by
  rw [filter_filter_decide, List.countP_eq_length_filter]

/-- Helper: evaluation of the worked example's single bucket. -/
theorem exampleDayMetrics_eval :
    dayMetricsFor exampleDayReviews 19358 = ⟨19358, 3, 2, 1, 0, 4, 2, 3, 1⟩ := by
  have hday : dayReviews exampleDayReviews 19358 = exampleDayReviews := by decide
  unfold dayMetricsFor
  simp only [hday]
  have havg : (if 0 < exampleDayReviews.length then
      round2 (((exampleDayReviews.map MReview.rating).sum) / exampleDayReviews.length)
    else 0) = 4 := by
    rw [show ((exampleDayReviews.map MReview.rating).sum) = (12 : ℚ) by
      norm_num [exampleDayReviews]]
    rw [show exampleDayReviews.length = 3 by decide]
    norm_num [round2, jsRound]
  rw [havg]
  congr 1

/-- Helper: bucket i of calculateDailyMetrics is the bucket of day
startDay + i. -/
theorem calculateDailyMetrics_getElem (reviews : List MReview) (s e : ℤ) (i : ℕ)
    (h : i < (calculateDailyMetrics reviews s e).length) :
    (calculateDailyMetrics reviews s e)[i] = dayMetricsFor reviews (s + (i : ℤ)) := by
  simp only [calculateDailyMetrics] at h ⊢
  rw [List.getElem_map, List.getElem_range]

/-- C1: for every review list and every day pair with startDay at most
endDay, calculateDailyMetrics returns exactly one bucket per calendar
day of the inclusive range, in date order (bucket i carries day
startDay + i); a day with zero reviews yields the all-zero bucket; on a
day with reviews, reviewsSubmitted counts that day's reviews,
fiveStarCount those with rating 5, escalations those with rating at most
2, and averageRating is the day's mean rating rounded to 2 decimals; the
worked example with ratings 5, 2, 5 on 2023-01-01 gives counts 3, 2, 1
and average 4. -/
theorem claim_C1_dailyMetrics (reviews : List MReview) (s e : ℤ) (_hse : s ≤ e) :
    (calculateDailyMetrics reviews s e).length = (e + 1 - s).toNat ∧
    (∀ i (h : i < (calculateDailyMetrics reviews s e).length),
      (calculateDailyMetrics reviews s e)[i].date = s + i ∧
      (calculateDailyMetrics reviews s e)[i].reviewsSubmitted =
        reviews.countP (fun r => decide (utcDay r.createdAt = s + i)) ∧
      (calculateDailyMetrics reviews s e)[i].fiveStarCount =
        reviews.countP (fun r => decide (utcDay r.createdAt = s + i ∧ r.rating = 5)) ∧
      (calculateDailyMetrics reviews s e)[i].escalations =
        reviews.countP (fun r => decide (utcDay r.createdAt = s + i ∧ r.rating ≤ 2)) ∧
      (reviews.countP (fun r => decide (utcDay r.createdAt = s + i)) = 0 →
        (calculateDailyMetrics reviews s e)[i] = ⟨s + i, 0, 0, 0, 0, 0, 0, 0, 0⟩) ∧
      (0 < reviews.countP (fun r => decide (utcDay r.createdAt = s + i)) →
        (calculateDailyMetrics reviews s e)[i].averageRating =
          round2 ((((dayReviews reviews (s + i)).map MReview.rating).sum) /
            (dayReviews reviews (s + i)).length))) ∧
    calculateDailyMetrics exampleDayReviews 19358 19358 =
      [⟨19358, 3, 2, 1, 0, 4, 2, 3, 1⟩] := by
  have hget := calculateDailyMetrics_getElem reviews s e
  refine ⟨by simp [calculateDailyMetrics], fun i h => ?_, ?_⟩
  case refine_2 =>
    have h1 : ((19358 : ℤ) + 1 - 19358).toNat = 1 := by norm_num
    simp only [calculateDailyMetrics, h1, show List.range 1 = [0] from rfl,
      List.map_cons, List.map_nil]
    rw [show ((19358 : ℤ) + ((0 : ℕ) : ℤ)) = 19358 by norm_num, exampleDayMetrics_eval]
  rw [hget i h]
  have hcount : (dayReviews reviews (s + i)).length =
      reviews.countP (fun r => decide (utcDay r.createdAt = s + i)) := by
    simp [dayReviews, List.countP_eq_length_filter]
  refine ⟨rfl, hcount, ?_, ?_, fun h0 => ?_, fun h0 => ?_⟩
  · simpa [dayMetricsFor, dayReviews] using
      filter_and_length reviews (fun r => utcDay r.createdAt = s + i) (fun r => r.rating = 5)
  · simpa [dayMetricsFor, dayReviews] using
      filter_and_length reviews (fun r => utcDay r.createdAt = s + i) (fun r => r.rating ≤ 2)
  · have hnil : dayReviews reviews (s + i) = [] := by
      rw [← List.length_eq_zero, hcount]
      exact h0
    simp [dayMetricsFor, hnil]
  · have hpos : 0 < (dayReviews reviews (s + i)).length := by
      rw [hcount]
      exact h0
    simp [dayMetricsFor, hpos]

/-- Witness for C1: the single-day range of the worked example. -/
theorem claim_C1_dailyMetrics_witness :
    (19358 : ℤ) ≤ 19358 ∧
      calculateDailyMetrics exampleDayReviews 19358 19358 =
        [⟨19358, 3, 2, 1, 0, 4, 2, 3, 1⟩] :=
  ⟨by decide, (claim_C1_dailyMetrics exampleDayReviews 19358 19358 (by decide)).2.2⟩

/-- Counterexample to C4 as stated: a review created at
1970-01-02T00:00:00Z falls on local day 0 (1970-01-01) in the UTC-5
zone, yet calculateDailyMetrics counts it in the bucket of day 1,
because the source buckets by the toISOString (UTC) date. -/
theorem claim_C4_counterexample : ¬dailyMetricsLocalDayClaim := by
  intro h
  have hmem : (⟨86400000, 5, "approved"⟩ : MReview) ∈
      dayReviews [⟨86400000, 5, "approved"⟩] 1 := by decide
  have h1 := (h (-300) [⟨86400000, 5, "approved"⟩] 0 1 1 ⟨86400000, 5, "approved"⟩
    (by simp) (by norm_num) (le_refl 1)).mp hmem
  exact absurd h1 (by decide)

/-- C4 amended: the daily-metrics partition assigns every review to the
bucket of the UTC calendar date of its createdAt timestamp (the
toISOString date), not the local calendar date: bucket i carries day
startDay + i and a review of the input list is counted in it exactly
when the UTC day of its createdAt equals that day. -/
theorem claim_C4_bucket_is_utc_day (reviews : List MReview) (s e : ℤ) (i : ℕ)
    (h : i < (calculateDailyMetrics reviews s e).length) (r : MReview) (hr : r ∈ reviews) :
    (calculateDailyMetrics reviews s e)[i] = dayMetricsFor reviews (s + (i : ℤ)) ∧
    (calculateDailyMetrics reviews s e)[i].date = s + (i : ℤ) ∧
    (r ∈ dayReviews reviews (s + (i : ℤ)) ↔ utcDay r.createdAt = s + (i : ℤ)) := by
  refine ⟨calculateDailyMetrics_getElem reviews s e i h, ?_, ?_⟩
  · rw [calculateDailyMetrics_getElem reviews s e i h]
    rfl
  · simp [dayReviews, List.mem_filter, hr]

/-- Witness for C4 amended: the counterexample review is counted on UTC
day 1, not on its UTC-5 local day 0. -/
theorem claim_C4_bucket_is_utc_day_witness :
    ((⟨86400000, 5, "approved"⟩ : MReview) ∈
        dayReviews [⟨86400000, 5, "approved"⟩] (0 + ((1 : ℕ) : ℤ)) ↔
      utcDay (86400000 : ℤ) = 0 + ((1 : ℕ) : ℤ)) :=
  (claim_C4_bucket_is_utc_day [⟨86400000, 5, "approved"⟩] 0 1 1
    (by decide) ⟨86400000, 5, "approved"⟩ (by simp)).2.2

/-- Counterexample to C5 as stated: a body whose rating is the
non-integer number 2.5 passes validateReviewData, because the source
checks only typeof number and the 1..5 range, never integrality. -/
theorem claim_C5_counterexample : ¬validateCreateClaim := by
  intro h
  have h1 := (h ⟨.str "c1", .str "Alice", .num q52, .str "t", .str "x", .undef⟩).mp (by decide)
  exact absurd h1.2.2.2.2.1 (by decide)

/-- Helper: a string's isEmpty flag is false exactly when the string is
not the empty string. -/
theorem string_isEmpty_false_iff (s : String) : s.isEmpty = false ↔ ¬s = "" := by
  constructor
  · intro h hs
    subst hs
    exact absurd h (by decide)
  · intro h
    cases hb : s.isEmpty
    · rfl
    · exact absurd ((String.isEmpty_iff s).mp hb) h

/-- C5 amended: validateReviewData accepts exactly the bodies whose four
text fields are truthy strings, whose rating is present and a number
(not necessarily an integer) between 1 and 5, and whose status is either
falsy (absent, empty or otherwise falsy) or one of the three enum
values; on failure the error list is non-empty; the function is total,
so it never throws. -/
theorem claim_C5_validate (d : ReviewInput) :
    ((validateReviewData d).isValid = true ↔
      ((d.customerId.truthy && d.customerId.isStr) = true ∧
       (d.customerName.truthy && d.customerName.isStr) = true ∧
       (d.title.truthy && d.title.isStr) = true ∧
       (d.comment.truthy && d.comment.isStr) = true ∧
       (∃ q : ℚ, d.rating = JSVal.num q ∧ 1 ≤ q ∧ q ≤ 5) ∧
       (d.status.truthy = false ∨ d.status.isStatusEnum = true))) ∧
    ((validateReviewData d).isValid = false → (validateReviewData d).errors ≠ []) := by
  obtain ⟨c1, c2, rt, t, cm, st⟩ := d
  constructor
  · rcases rt with _ | _ | s | q | b <;> rcases st with _ | _ | s2 | q2 | b2 <;>
      simp [validateReviewData, JSVal.truthy, JSVal.isStr, JSVal.isStatusEnum,
        List.isEmpty_iff, List.append_eq_nil, not_or, and_assoc,
        Bool.and_eq_true, Bool.or_eq_true, Bool.not_eq_true', Bool.not_eq_false',
        beq_iff_eq, decide_eq_true_eq, String.isEmpty_iff,
        string_isEmpty_false_iff, Bool.not_eq_true, Bool.not_eq_false] <;>
      tauto
  · intro hf
    simp only [validateReviewData] at hf ⊢
    intro hnil
    rw [hnil] at hf
    simp at hf

/-- Witness for C5 amended: a fully valid body is accepted. -/
theorem claim_C5_validate_witness :
    (validateReviewData
      ⟨.str "c", .str "n", .num 5, .str "t", .str "x", .undef⟩).isValid = true :=
  ((claim_C5_validate ⟨.str "c", .str "n", .num 5, .str "t", .str "x", .undef⟩).1).mpr
    ⟨by decide, by decide, by decide, by decide,
     ⟨5, rfl, by norm_num, by norm_num⟩, Or.inl (by decide)⟩

/-- C6: for every store with distinct review ids (the PRIMARY KEY
invariant), every stored review and every partial update accepted by
update validation, the PUT pipeline (updateReview merge followed by the
updateReviewById UPDATE) changes, in the matched row, exactly the
provided fields plus updatedAt: every absent field keeps its pre-update
value, every other row is untouched, and the stored id (and createdAt)
are never changed by an update. -/
theorem claim_C6_update_frame (store : List Review) (rid : String) (r : Review)
    (u : UpdateData) (now : String)
    (hmem : r ∈ store) (hid : r.id = rid)
    (hnodup : (store.map Review.id).Nodup)
    (_hvalid : (validateUpdateData u).isValid = true) :
    updateReviewById store rid (updateReview r u now) =
      some (store.map fun row =>
        if row.id == rid then
          { id := row.id
            customerId := u.customerId.getD row.customerId
            customerName := u.customerName.getD row.customerName
            rating := u.rating.getD row.rating
            title := u.title.getD row.title
            comment := u.comment.getD row.comment
            status := u.status.getD row.status
            createdAt := row.createdAt
            updatedAt := now }
        else row) := by
  have hinj := List.inj_on_of_nodup_map hnodup
  have hall : (store.all fun row => row.id != rid) = false := by
    rw [List.all_eq_false]
    exact ⟨r, hmem, by simp [hid]⟩
  rw [updateReviewById, if_neg (by simp [hall])]
  refine congrArg some (List.map_congr_left fun row hrow => ?_)
  by_cases hcase : row.id = rid
  · have hrr : row = r := hinj hrow hmem (by rw [hcase, hid])
    subst hrr
    simp [hcase, updateReview]
  · simp [hcase]

/-- Witness for C6: updating the comment of the sole stored review
changes only that comment and updatedAt. -/
theorem claim_C6_update_frame_witness :
    updateReviewById [⟨"a", "c1", "Alice", 5, "t", "old", "pending", "d0", "d0"⟩] "a"
        (updateReview ⟨"a", "c1", "Alice", 5, "t", "old", "pending", "d0", "d0"⟩
          ⟨none, none, none, none, none, some "new", none, none⟩ "d1") =
      some ([⟨"a", "c1", "Alice", 5, "t", "old", "pending", "d0", "d0"⟩].map fun row =>
        if row.id == "a" then
          { id := row.id
            customerId := (none : Option String).getD row.customerId
            customerName := (none : Option String).getD row.customerName
            rating := (none : Option ℤ).getD row.rating
            title := (none : Option String).getD row.title
            comment := (some "new").getD row.comment
            status := (none : Option String).getD row.status
            createdAt := row.createdAt
            updatedAt := "d1" }
        else row) :=
  claim_C6_update_frame [⟨"a", "c1", "Alice", 5, "t", "old", "pending", "d0", "d0"⟩] "a"
    ⟨"a", "c1", "Alice", 5, "t", "old", "pending", "d0", "d0"⟩
    ⟨none, none, none, none, none, some "new", none, none⟩ "d1"
    (by simp) rfl (by simp) (by decide)

/-- Helper: stable insertion permutes. -/
theorem orderedInsert_perm (le : α → α → Bool) (a : α) (l : List α) :
    (orderedInsert le a l).Perm (a :: l) := by
  induction l with
  | nil => exact List.Perm.refl _
  | cons b t ih =>
    by_cases h : le a b = true
    · rw [orderedInsert, if_pos h]
    · rw [orderedInsert, if_neg h]
      exact (ih.cons b).trans (List.Perm.swap a b t)

/-- Helper: the stable sort permutes. -/
theorem stableSortBy_perm (le : α → α → Bool) (l : List α) :
    (stableSortBy le l).Perm l := by
  induction l with
  | nil => exact List.Perm.refl _
  | cons x t ih => exact (orderedInsert_perm le x _).trans (ih.cons x)

/-- Helper: stable insertion preserves pairwise order for a total
transitive comparator. -/
theorem pairwise_orderedInsert (le : α → α → Bool)
    (htot : ∀ a b, le a b = true ∨ le b a = true)
    (htrans : ∀ a b c, le a b = true → le b c = true → le a c = true)
    (a : α) (l : List α) (hl : l.Pairwise fun x y => le x y = true) :
    (orderedInsert le a l).Pairwise fun x y => le x y = true := by
  induction l with
  | nil => simp [orderedInsert]
  | cons b t ih =>
    rcases List.pairwise_cons.mp hl with ⟨hb, ht⟩
    by_cases h : le a b = true
    · rw [orderedInsert, if_pos h]
      refine List.pairwise_cons.mpr ⟨?_, hl⟩
      intro x hx
      rcases List.mem_cons.mp hx with rfl | hx
      · exact h
      · exact htrans a b x h (hb x hx)
    · rw [orderedInsert, if_neg h]
      refine List.pairwise_cons.mpr ⟨?_, ih ht⟩
      intro x hx
      rcases List.mem_cons.mp ((orderedInsert_perm le a t).mem_iff.mp hx) with hx1 | hx
      · rw [hx1]
        rcases htot a b with h1 | h1
        · exact absurd h1 h
        · exact h1
      · exact hb x hx

/-- Helper: the stable sort orders its output for a total transitive
comparator. -/
theorem stableSortBy_pairwise (le : α → α → Bool)
    (htot : ∀ a b, le a b = true ∨ le b a = true)
    (htrans : ∀ a b c, le a b = true → le b c = true → le a c = true)
    (l : List α) :
    (stableSortBy le l).Pairwise fun x y => le x y = true := by
  induction l with
  | nil => simp [stableSortBy]
  | cons x t ih => exact pairwise_orderedInsert le htot htrans x _ ih

/-- Counterexample to C9 as stated: with two records tied on rating, the
stable sort leaves both orders as the insertion order, so descending is
not the reverse of ascending. -/
theorem claim_C9_counterexample : ¬ratingSortReverseClaim := by
  intro h
  exact absurd (h (fun _ => 0) (fun _ => 0) [recA, recB]) (by decide)

/-- C9 amended: both rating sorts of the details route return a
permutation of the filtered set (same multiset), and when no two records
share a rating the descending sort is the exact reverse of the ascending
sort; on ties the actual tie-break is stability (pre-sort insertion
order) in both directions, so the sequences are then not reverses. -/
theorem claim_C9_rating_sort (dateVal : String → ℤ) (floatVal : String → ℚ)
    (records : List DetailRecord)
    (hnodup : (records.map DetailRecord.rating).Nodup) :
    (stableSortBy (detailSortRel dateVal floatVal "rating" "asc") records).Perm records ∧
    (stableSortBy (detailSortRel dateVal floatVal "rating" "desc") records).Perm records ∧
    stableSortBy (detailSortRel dateVal floatVal "rating" "desc") records =
      (stableSortBy (detailSortRel dateVal floatVal "rating" "asc") records).reverse := by
  have hasc : ∀ a b, detailSortRel dateVal floatVal "rating" "asc" a b =
      decide (a.rating ≤ b.rating) := fun a b => rfl
  have hdesc : ∀ a b, detailSortRel dateVal floatVal "rating" "desc" a b =
      decide (b.rating ≤ a.rating) := fun a b => rfl
  have hpasc := stableSortBy_perm (detailSortRel dateVal floatVal "rating" "asc") records
  have hpdesc := stableSortBy_perm (detailSortRel dateVal floatVal "rating" "desc") records
  refine ⟨hpasc, hpdesc, ?_⟩
  have hne_asc : (stableSortBy (detailSortRel dateVal floatVal "rating" "asc") records).Pairwise
      fun a b => a.rating ≠ b.rating := by
    rw [← List.pairwise_map]
    exact ((hpasc.map DetailRecord.rating).nodup_iff.mpr hnodup)
  have hne_desc : (stableSortBy (detailSortRel dateVal floatVal "rating" "desc") records).Pairwise
      fun a b => a.rating ≠ b.rating := by
    rw [← List.pairwise_map]
    exact ((hpdesc.map DetailRecord.rating).nodup_iff.mpr hnodup)
  have hle_asc : (stableSortBy (detailSortRel dateVal floatVal "rating" "asc") records).Pairwise
      fun a b => a.rating ≤ b.rating := by
    have := stableSortBy_pairwise (detailSortRel dateVal floatVal "rating" "asc")
      (fun a b => by rw [hasc, hasc]; rcases le_total a.rating b.rating with h | h <;>
        simp [h])
      (fun a b c hab hbc => by
        rw [hasc] at hab hbc ⊢
        simp only [decide_eq_true_eq] at hab hbc ⊢
        exact le_trans hab hbc)
      records
    exact this.imp fun h => by simpa [hasc] using h
  have hle_desc : (stableSortBy (detailSortRel dateVal floatVal "rating" "desc") records).Pairwise
      fun a b => b.rating ≤ a.rating := by
    have := stableSortBy_pairwise (detailSortRel dateVal floatVal "rating" "desc")
      (fun a b => by rw [hdesc, hdesc]; rcases le_total a.rating b.rating with h | h <;>
        simp [h])
      (fun a b c hab hbc => by
        rw [hdesc] at hab hbc ⊢
        simp only [decide_eq_true_eq] at hab hbc ⊢
        exact le_trans hbc hab)
      records
    exact this.imp fun h => by simpa [hdesc] using h
  have hsorted_desc : (stableSortBy (detailSortRel dateVal floatVal "rating" "desc")
      records).Sorted ratingGT := by
    have := hle_desc.and hne_desc
    exact this.imp fun h => lt_of_le_of_ne h.1 (Ne.symm h.2)
  have hsorted_rev : ((stableSortBy (detailSortRel dateVal floatVal "rating" "asc")
      records).reverse).Sorted ratingGT := by
    show ((stableSortBy (detailSortRel dateVal floatVal "rating" "asc")
      records).reverse).Pairwise ratingGT
    rw [List.pairwise_reverse]
    have := hle_asc.and hne_asc
    exact this.imp fun h => lt_of_le_of_ne h.1 h.2
  exact List.eq_of_perm_of_sorted
    (hpdesc.trans (hpasc.symm.trans (stableSortBy _ _).reverse_perm.symm))
    hsorted_desc hsorted_rev

/-- Witness for C9 amended: two records with distinct ratings come back
reversed between the two sort orders. -/
theorem claim_C9_rating_sort_witness :
    stableSortBy (detailSortRel (fun _ => 0) (fun _ => 0) "rating" "desc")
        [recA, { recB with rating := 2 }] =
      (stableSortBy (detailSortRel (fun _ => 0) (fun _ => 0) "rating" "asc")
        [recA, { recB with rating := 2 }]).reverse :=
  (claim_C9_rating_sort (fun _ => 0) (fun _ => 0) [recA, { recB with rating := 2 }]
    (by decide)).2.2

/-- Helper: a guarded filter step only discards records. -/
theorem condFilter_subset (param : Option String) (records : List DetailRecord)
    (pred : String → DetailRecord → Bool) (rec : DetailRecord)
    (h : rec ∈ condFilter param records pred) : rec ∈ records := by
  unfold condFilter at h
  cases hp : presentParam param with
  | some x =>
    rw [hp] at h
    exact (List.mem_filter.mp h).1
  | none =>
    rw [hp] at h
    exact h

/-- Helper: the in-route detail filters only discard records. -/
theorem mem_of_mem_applyDetailFilters (records : List DetailRecord) (p : DetailsParams)
    (rec : DetailRecord) (h : rec ∈ applyDetailFilters records p) : rec ∈ records := by
  unfold applyDetailFilters at h
  exact condFilter_subset _ _ _ rec (condFilter_subset _ _ _ rec (condFilter_subset _ _ _ rec
    (condFilter_subset _ _ _ rec (condFilter_subset _ _ _ rec
      (condFilter_subset _ _ _ rec h)))))

/-- Helper: when the sentiment parameter is the non-empty value Positive,
every record surviving the in-route filters has sentiment Positive. -/
theorem sentiment_of_mem_applyDetailFilters (records : List DetailRecord) (p : DetailsParams)
    (hs : p.sentiment = some "Positive") (rec : DetailRecord)
    (h : rec ∈ applyDetailFilters records p) : rec.sentiment = "Positive" := by
  unfold applyDetailFilters at h
  have h5 := condFilter_subset _ _ _ rec h
  have h4 := condFilter_subset _ _ _ rec h5
  rw [hs] at h4
  simp only [condFilter, presentParam, String.isEmpty_iff, reduceIte] at h4
  exact beq_iff_eq.mp (List.mem_filter.mp h4).2

/-- Helper: every transformed record's sentiment field is Positive
exactly when its rating is at least 4 (the transform derives both from
the same review). -/
theorem sentiment_iff_rating_of_mem_transform (reviews : List Review)
    (env : ℕ → String × String) (rec : DetailRecord)
    (h : rec ∈ transformReviewsForDetailsTable reviews env) :
    rec.sentiment = "Positive" ↔ 4 ≤ rec.rating := by
  unfold transformReviewsForDetailsTable at h
  rcases List.mem_map.mp h with ⟨pr, _hpr, hrec⟩
  subst hrec
  by_cases h4 : 4 ≤ pr.2.rating
  · simp [transformReview, h4]
  · by_cases h3 : pr.2.rating = 3 <;> simp [transformReview, h4, h3]

/-- C8: for every detail query with sentiment=Positive, the full
filtered set and hence every returned record has rating at least 4, and
the statistics block (total, the four breakdowns, average rating) is
computed over the full filtered set before pagination: statistics.total
equals the full filtered count even when limit truncates the records
page. -/
theorem claim_C8_details_statistics (dateVal : String → ℤ) (floatVal : String → ℚ)
    (store : List Review) (env : ℕ → String × String) (p : DetailsParams)
    (hs : p.sentiment = some "Positive") :
    (∀ rec ∈ detailsFullFiltered store env p, 4 ≤ rec.rating) ∧
    (∀ rec ∈ (detailsEndpoint dateVal floatVal store env p).records, 4 ≤ rec.rating) ∧
    (detailsEndpoint dateVal floatVal store env p).statsTotal =
      (detailsFullFiltered store env p).length ∧
    (detailsEndpoint dateVal floatVal store env p).records.length ≤ p.limit ∧
    (∀ k, (detailsEndpoint dateVal floatVal store env p).statusBreakdown k =
      ((detailsFullFiltered store env p).filter fun rec => rec.status == k).length) ∧
    (∀ k, (detailsEndpoint dateVal floatVal store env p).sentimentBreakdown k =
      ((detailsFullFiltered store env p).filter fun rec => rec.sentiment == k).length) ∧
    (∀ k, (detailsEndpoint dateVal floatVal store env p).stabilityBreakdown k =
      ((detailsFullFiltered store env p).filter fun rec => rec.stability == k).length) ∧
    (∀ k, (detailsEndpoint dateVal floatVal store env p).regionBreakdown k =
      ((detailsFullFiltered store env p).filter fun rec => rec.region == k).length) ∧
    (detailsEndpoint dateVal floatVal store env p).averageRating =
      (if 0 < (detailsFullFiltered store env p).length then
        round2 ((((detailsFullFiltered store env p).map fun rec => (rec.rating : ℚ)).sum) /
          (detailsFullFiltered store env p).length)
      else 0) := by
  have hperm := stableSortBy_perm (detailSortRel dateVal floatVal p.sortBy p.sortOrder)
    (detailsFullFiltered store env p)
  have hrat : ∀ rec ∈ detailsFullFiltered store env p, 4 ≤ rec.rating := by
    intro rec h
    have hsent := sentiment_of_mem_applyDetailFilters _ p hs rec h
    have hmem := mem_of_mem_applyDetailFilters _ p rec h
    exact (sentiment_iff_rating_of_mem_transform _ env rec hmem).mp hsent
  have hcount : ∀ q : DetailRecord → Bool,
      ((stableSortBy (detailSortRel dateVal floatVal p.sortBy p.sortOrder)
        (detailsFullFiltered store env p)).filter q).length =
        ((detailsFullFiltered store env p).filter q).length := by
    intro q
    rw [← List.countP_eq_length_filter, ← List.countP_eq_length_filter]
    exact hperm.countP_eq q
  refine ⟨hrat, ?_, hperm.length_eq, ?_, fun k => hcount _, fun k => hcount _,
    fun k => hcount _, fun k => hcount _, ?_⟩
  · intro rec h
    have hsorted : rec ∈ stableSortBy (detailSortRel dateVal floatVal p.sortBy p.sortOrder)
        (detailsFullFiltered store env p) :=
      List.mem_of_mem_drop (List.mem_of_mem_take h)
    exact hrat rec (hperm.mem_iff.mp hsorted)
  · exact List.length_take_le _ _
  · simp only [detailsEndpoint]
    rw [hperm.length_eq, (hperm.map fun rec => (rec.rating : ℚ)).sum_eq]

/-- Witness for C8: a store with two positive reviews and one negative,
a limit of 1, so the records page is truncated while statistics.total
reports the full filtered count. -/
theorem claim_C8_details_statistics_witness :
    (∀ rec ∈ detailsFullFiltered
        [⟨"a", "c1", "A", 5, "t", "x", "approved", "d", "d"⟩,
         ⟨"b", "c2", "B", 1, "t", "x", "pending", "d", "d"⟩,
         ⟨"c", "c3", "C", 4, "t", "x", "approved", "d", "d"⟩]
        (fun _ => ("$1", "US-East"))
        ⟨none, none, none, none, none, none, some "Positive", none, none, 1, 0,
          "createdAt", "desc"⟩, 4 ≤ rec.rating) ∧
    (detailsEndpoint (fun _ => 0) (fun _ => 0)
        [⟨"a", "c1", "A", 5, "t", "x", "approved", "d", "d"⟩,
         ⟨"b", "c2", "B", 1, "t", "x", "pending", "d", "d"⟩,
         ⟨"c", "c3", "C", 4, "t", "x", "approved", "d", "d"⟩]
        (fun _ => ("$1", "US-East"))
        ⟨none, none, none, none, none, none, some "Positive", none, none, 1, 0,
          "createdAt", "desc"⟩).statsTotal =
      (detailsFullFiltered
        [⟨"a", "c1", "A", 5, "t", "x", "approved", "d", "d"⟩,
         ⟨"b", "c2", "B", 1, "t", "x", "pending", "d", "d"⟩,
         ⟨"c", "c3", "C", 4, "t", "x", "approved", "d", "d"⟩]
        (fun _ => ("$1", "US-East"))
        ⟨none, none, none, none, none, none, some "Positive", none, none, 1, 0,
          "createdAt", "desc"⟩).length :=
  ⟨(claim_C8_details_statistics (fun _ => 0) (fun _ => 0) _ _ _ rfl).1,
   (claim_C8_details_statistics (fun _ => 0) (fun _ => 0) _ _ _ rfl).2.2.1⟩

/-- Helper: startsList decides the prefix relation. -/
theorem startsList_iff (n hay : List Char) : startsList n hay = true ↔ n <+: hay := by
  induction n generalizing hay with
  | nil => simp [startsList]
  | cons c cs ih =>
    cases hay with
    | nil => simp [startsList]
    | cons d ds => simp [startsList, List.cons_prefix_cons, ih, Bool.and_eq_true, beq_iff_eq]

/-- Helper: hasSub decides the contiguous-substring relation. -/
theorem hasSub_iff (hay n : List Char) : hasSub hay n = true ↔ n <:+: hay := by
  induction hay with
  | nil =>
    simp [hasSub, List.infix_nil, List.isEmpty_iff]
  | cons c rest ih =>
    rw [List.infix_cons_iff]
    simp [hasSub, Bool.or_eq_true, startsList_iff, ih]

/-- Helper: a prefix of an append is a prefix of the left part or
extends it. -/
theorem prefix_append_cases (n A B : List Char) (h : n <+: A ++ B) :
    n <+: A ∨ ∃ rest, n = A ++ rest ∧ rest <+: B := by
  rcases List.prefix_or_prefix_of_prefix h (List.prefix_append A B) with h1 | h1
  · exact Or.inl h1
  · rcases h1 with ⟨rest, hrest⟩
    refine Or.inr ⟨rest, hrest.symm, ?_⟩
    rw [← hrest] at h
    exact (List.prefix_append_right_inj A).mp h

/-- Helper: an occurrence inside an append lies in the left part, in the
right part, or straddles the boundary. -/
theorem infix_append_cases (n x y : List Char) (h : n <:+: x ++ y) :
    n <:+: x ∨ n <:+: y ∨
      ∃ n₁ n₂, n = n₁ ++ n₂ ∧ n₁ ≠ [] ∧ n₂ ≠ [] ∧ n₁ <:+ x ∧ n₂ <+: y := by
  induction x with
  | nil => exact Or.inr (Or.inl h)
  | cons c x' ih =>
    rcases List.infix_cons_iff.mp h with h1 | h1
    · rcases prefix_append_cases n (c :: x') y h1 with h2 | ⟨rest, hrest, hpre⟩
      · rcases h2 with ⟨t, ht⟩
        exact Or.inl ⟨[], t, by simpa using ht⟩
      · cases hr : rest with
        | nil =>
          subst hr
          rw [List.append_nil] at hrest
          exact Or.inl (hrest ▸ List.infix_refl _)
        | cons a t =>
          subst hr
          exact Or.inr (Or.inr ⟨c :: x', a :: t, hrest, by simp, by simp,
            List.suffix_refl _, hpre⟩)
    · rcases ih h1 with h2 | h2 | ⟨n₁, n₂, heq, hn1, hn2, hsuf, hpre⟩
      · exact Or.inl (List.infix_cons h2)
      · exact Or.inr (Or.inl h2)
      · exact Or.inr (Or.inr ⟨n₁, n₂, heq, hn1, hn2, hsuf.trans (List.suffix_cons c x'),
          hpre⟩)

/-- Helper: appending a q-weight suffix to a candidate does not change
whether it contains a media-type string: the media types carry a slash
and no semicolon, the separator carries neither side of one. -/
theorem hasSub_q_weight (fmt : String) (tau omega : List Char)
    (hsem : (';' : Char) ∉ fmt.data) (hslash : ('/' : Char) ∈ fmt.data)
    (hw : ('/' : Char) ∉ omega) :
    hasSub (tau ++ ([';', 'q', '='] ++ omega)) fmt.data = hasSub tau fmt.data := by
  rw [Bool.eq_iff_iff, hasSub_iff, hasSub_iff]
  constructor
  · intro h
    rcases infix_append_cases _ _ _ h with h1 | h1 | ⟨n₁, n₂, heq, _hn1, hn2, _hsuf, hpre⟩
    · exact h1
    · exfalso
      have hmem := h1.subset hslash
      rcases List.mem_append.mp hmem with hmem | hmem
      · simp at hmem
      · exact hw hmem
    · exfalso
      cases n₂ with
      | nil => exact hn2 rfl
      | cons a t =>
        have ha : a = ';' := (List.cons_prefix_cons.mp hpre).1
        apply hsem
        rw [heq, ha]
        simp
  · intro h
    rcases h with ⟨s, t, hst⟩
    exact ⟨s, t ++ ([';', 'q', '='] ++ omega), by rw [← hst]; simp⟩

/-- C7: media-type resolution parses the comma-separated candidates of
the Accept header (lower-cased, trimmed), picks the first matching type
in the fixed priority order csv over xml over json by substring tests,
resolves a missing, empty or unrecognized header to json, and ignores
any q-weight suffix of a candidate (for weights that do not themselves
contain a slash character). -/
theorem claim_C7_parseAcceptHeader :
    parseAcceptHeader none = "json" ∧
    (∀ h : String,
      (parseAcceptHeader (some h) = "csv" ↔
        ∃ t ∈ (splitOnChar ',' (toLowerChars h.data)).map trimChars,
          hasSub t "text/csv".data = true ∨ hasSub t "application/csv".data = true) ∧
      (parseAcceptHeader (some h) = "xml" ↔
        ((¬∃ t ∈ (splitOnChar ',' (toLowerChars h.data)).map trimChars,
            hasSub t "text/csv".data = true ∨ hasSub t "application/csv".data = true) ∧
          ∃ t ∈ (splitOnChar ',' (toLowerChars h.data)).map trimChars,
            hasSub t "application/xml".data = true ∨ hasSub t "text/xml".data = true)) ∧
      (((¬∃ t ∈ (splitOnChar ',' (toLowerChars h.data)).map trimChars,
            hasSub t "text/csv".data = true ∨ hasSub t "application/csv".data = true) ∧
        (¬∃ t ∈ (splitOnChar ',' (toLowerChars h.data)).map trimChars,
            hasSub t "application/xml".data = true ∨ hasSub t "text/xml".data = true)) →
        parseAcceptHeader (some h) = "json")) ∧
    (∀ fmt : String, ∀ tau omega : List Char,
      fmt ∈ (["text/csv", "application/csv", "application/xml", "text/xml",
        "application/json"] : List String) →
      ('/' : Char) ∉ omega →
      hasSub (tau ++ ([';', 'q', '='] ++ omega)) fmt.data = hasSub tau fmt.data) := by
  refine ⟨rfl, fun h => ?_, fun fmt tau omega hfmt hw => ?_⟩
  · by_cases hne : h = ""
    · subst hne
      refine ⟨?_, ?_, fun _ => rfl⟩ <;> simp [parseAcceptHeader] <;> decide
    · by_cases hcsv : ((splitOnChar ',' (toLowerChars h.data)).map trimChars).any
          (fun t => hasSub t "text/csv".data || hasSub t "application/csv".data) = true
      · have hres : parseAcceptHeader (some h) = "csv" := by
          simp [parseAcceptHeader, hne, hcsv]
        refine ⟨?_, ?_, ?_⟩
        · simp only [hres, true_iff]
          simpa [List.any_eq_true, Bool.or_eq_true] using hcsv
        · rw [hres]
          constructor
          · intro hx
            exact absurd hx (by decide)
          · rintro ⟨hnocsv, _⟩
            exact absurd (by simpa [List.any_eq_true, Bool.or_eq_true] using hcsv) hnocsv
        · rintro ⟨hnocsv, _⟩
          exact absurd (by simpa [List.any_eq_true, Bool.or_eq_true] using hcsv) hnocsv
      · by_cases hxml : ((splitOnChar ',' (toLowerChars h.data)).map trimChars).any
            (fun t => hasSub t "application/xml".data || hasSub t "text/xml".data) = true
        · have hres : parseAcceptHeader (some h) = "xml" := by
            simp [parseAcceptHeader, hne, hcsv, hxml]
          refine ⟨?_, ?_, ?_⟩
          · rw [hres]
            constructor
            · intro hx
              exact absurd hx (by decide)
            · intro hx
              exact absurd (by simpa [List.any_eq_true, Bool.or_eq_true] using hx) hcsv
          · simp only [hres, true_iff]
            refine ⟨?_, by simpa [List.any_eq_true, Bool.or_eq_true] using hxml⟩
            intro hx
            exact absurd (by simpa [List.any_eq_true, Bool.or_eq_true] using hx) hcsv
          · rintro ⟨_, hnoxml⟩
            exact absurd (by simpa [List.any_eq_true, Bool.or_eq_true] using hxml) hnoxml
        · have hres : parseAcceptHeader (some h) = "json" := by
            by_cases hjson : ((splitOnChar ',' (toLowerChars h.data)).map trimChars).any
                (fun t => hasSub t "application/json".data) = true <;>
              simp [parseAcceptHeader, hne, hcsv, hxml, hjson]
          refine ⟨?_, ?_, fun _ => hres⟩
          · rw [hres]
            constructor
            · intro hx
              exact absurd hx (by decide)
            · intro hx
              exact absurd (by simpa [List.any_eq_true, Bool.or_eq_true] using hx) hcsv
          · rw [hres]
            constructor
            · intro hx
              exact absurd hx (by decide)
            · rintro ⟨_, hx⟩
              exact absurd (by simpa [List.any_eq_true, Bool.or_eq_true] using hx) hxml
  · simp only [List.mem_cons, List.not_mem_nil, or_false] at hfmt
    rcases hfmt with rfl | rfl | rfl | rfl | rfl <;>
      exact hasSub_q_weight _ tau omega (by decide) (by decide) hw

/-- Witness for C7: the repository's own test header with q-weights
resolves to xml through the characterization. -/
theorem claim_C7_parseAcceptHeader_witness :
    parseAcceptHeader (some "text/html,application/xml;q=0.9,*/*;q=0.8") = "xml" :=
  ((claim_C7_parseAcceptHeader.2.1 "text/html,application/xml;q=0.9,*/*;q=0.8").2.1).mpr
    ⟨by decide, by decide⟩

/-- Helper: String.mk is inverse to String.data. -/
theorem string_mk_data (s : String) : String.mk s.data = s := rfl

/-- Helper: escaping is the identity on quote-free text. -/
theorem escapeQuotes_eq_self (cs : List Char) (h : ('"' : Char) ∉ cs) :
    escapeQuotes cs = cs := by
  induction cs with
  | nil => rfl
  | cons c t ih =>
    have hc : c ≠ '"' := fun hc => h (hc ▸ List.mem_cons_self c t)
    simp only [escapeQuotes, List.foldr_cons, if_neg hc]
    exact congrArg (c :: ·) (ih fun hm => h (List.mem_cons_of_mem c hm))

/-- Helper: the scanner consumes an escaped body inside quotes up to the
closing quote followed by a comma. -/
theorem csvScan_escaped (body acc rest : List Char) :
    csvScan true acc (escapeQuotes body ++ '"' :: ',' :: rest) =
      String.mk (acc.reverse ++ body) :: csvScan false [] rest := by
  induction body generalizing acc with
  | nil => simp [escapeQuotes, csvScan]
  | cons c cs ih =>
    by_cases hc : c = '"'
    · subst hc
      have he : escapeQuotes ('"' :: cs) = '"' :: '"' :: escapeQuotes cs := by
        simp [escapeQuotes]
      rw [he, List.cons_append, List.cons_append]
      rw [show csvScan true acc
          ('"' :: '"' :: (escapeQuotes cs ++ '"' :: ',' :: rest)) =
          csvScan true ('"' :: acc) (escapeQuotes cs ++ '"' :: ',' :: rest) by
        simp [csvScan]]
      rw [ih ('"' :: acc)]
      simp
    · have he : escapeQuotes (c :: cs) = c :: escapeQuotes cs := by
        simp [escapeQuotes, hc]
      rw [he, List.cons_append]
      rw [show csvScan true acc (c :: (escapeQuotes cs ++ '"' :: ',' :: rest)) =
          csvScan true (c :: acc) (escapeQuotes cs ++ '"' :: ',' :: rest) by
        rw [csvScan.eq_def]; simp [hc]]
      rw [ih (c :: acc)]
      simp

/-- Helper: the scanner consumes an escaped body inside quotes up to a
closing quote that ends the record. -/
theorem csvScan_escaped_last (body acc : List Char) :
    csvScan true acc (escapeQuotes body ++ ['"']) =
      [String.mk (acc.reverse ++ body)] := by
  induction body generalizing acc with
  | nil => simp [escapeQuotes, csvScan]
  | cons c cs ih =>
    by_cases hc : c = '"'
    · subst hc
      have he : escapeQuotes ('"' :: cs) = '"' :: '"' :: escapeQuotes cs := by
        simp [escapeQuotes]
      rw [he, List.cons_append, List.cons_append]
      rw [show csvScan true acc ('"' :: '"' :: (escapeQuotes cs ++ ['"'])) =
          csvScan true ('"' :: acc) (escapeQuotes cs ++ ['"']) by simp [csvScan]]
      rw [ih ('"' :: acc)]
      simp
    · have he : escapeQuotes (c :: cs) = c :: escapeQuotes cs := by
        simp [escapeQuotes, hc]
      rw [he, List.cons_append]
      rw [show csvScan true acc (c :: (escapeQuotes cs ++ ['"'])) =
          csvScan true (c :: acc) (escapeQuotes cs ++ ['"']) by
        rw [csvScan.eq_def]; simp [hc]]
      rw [ih (c :: acc)]
      simp

/-- Helper: the scanner consumes a bare comma-free quote-free field up to
the next comma. -/
theorem csvScan_bare (field acc rest : List Char)
    (hf : ∀ c ∈ field, ¬c = ',' ∧ ¬c = '"') :
    csvScan false acc (field ++ ',' :: rest) =
      String.mk (acc.reverse ++ field) :: csvScan false [] rest := by
  induction field generalizing acc with
  | nil => simp [csvScan]
  | cons c cs ih =>
    obtain ⟨hc1, hc2⟩ := hf c (List.mem_cons_self c cs)
    rw [List.cons_append]
    rw [show csvScan false acc (c :: (cs ++ ',' :: rest)) =
        csvScan false (c :: acc) (cs ++ ',' :: rest) by
      rw [csvScan.eq_def]; simp [hc1, hc2]]
    rw [ih (c :: acc) (fun x hx => hf x (List.mem_cons_of_mem c hx))]
    simp

/-- Helper: a quoted escaped field followed by a comma parses to its
body. -/
theorem csvScan_quoted_field (body rest : List Char) :
    csvScan false [] (quoteData (escapeQuotes body) ++ ',' :: rest) =
      String.mk body :: csvScan false [] rest := by
  rw [quoteData, List.cons_append, List.append_assoc]
  rw [show csvScan false [] ('"' :: (escapeQuotes body ++ (['"'] ++ ',' :: rest))) =
      csvScan true [] (escapeQuotes body ++ (['"'] ++ ',' :: rest)) by simp [csvScan]]
  rw [show (['"'] ++ ',' :: rest) = '"' :: ',' :: rest from rfl]
  rw [csvScan_escaped body [] rest]
  simp

/-- Helper: a quoted escaped field at the end of the record parses to
its body. -/
theorem csvScan_quoted_last (body : List Char) :
    csvScan false [] (quoteData (escapeQuotes body)) = [String.mk body] := by
  rw [quoteData]
  rw [show csvScan false [] ('"' :: (escapeQuotes body ++ ['"'])) =
      csvScan true [] (escapeQuotes body ++ ['"']) by simp [csvScan]]
  rw [csvScan_escaped_last body []]
  simp

/-- Helper: the characters of an exported CSV row. -/
theorem csvRow_data (r : Review) :
    (csvRow r).data =
      quoteData r.id.data ++ ',' ::
        (quoteData r.customerId.data ++ ',' ::
          (quoteData r.customerName.data ++ ',' ::
            ((toString r.rating).data ++ ',' ::
              (quoteData (escapeQuotes r.title.data) ++ ',' ::
                (quoteData (escapeQuotes r.comment.data) ++ ',' ::
                  (quoteData r.status.data ++ ',' ::
                    (quoteData r.createdAt.data ++ ',' ::
                      quoteData r.updatedAt.data))))))) := by
  simp [csvRow, joinComma, quoteField, escapeQuotesStr, quoteData, String.data_append]

/-- Counterexample to C2 as stated: a customerName with an embedded
double quote is emitted quoted but unescaped (only title and comment are
escaped), so parsing the row back breaks on it and the field values are
not reproduced. -/
theorem claim_C2_counterexample : ¬csvRoundTripClaim := by
  intro h
  exact absurd (h ⟨"i", "c", "a\"b", 5, "t", "x", "approved", "d0", "d1"⟩) (by decide)

/-- C2 amended: only title and comment have their inner quotes doubled;
the CSV round-trip reproduces all nine field values provided the other
six string fields contain no double-quote character (title and comment
may contain quotes and commas freely) and the rating is the DB-checked
integer 1..5. -/
theorem claim_C2_csv_roundtrip (r : Review)
    (hid : ('"' : Char) ∉ r.id.data)
    (hcust : ('"' : Char) ∉ r.customerId.data)
    (hname : ('"' : Char) ∉ r.customerName.data)
    (hstatus : ('"' : Char) ∉ r.status.data)
    (hcreated : ('"' : Char) ∉ r.createdAt.data)
    (hupdated : ('"' : Char) ∉ r.updatedAt.data)
    (hrating : 1 ≤ r.rating ∧ r.rating ≤ 5) :
    parseCSVRecord (csvRow r) =
      [r.id, r.customerId, r.customerName, toString r.rating, r.title, r.comment, r.status,
       r.createdAt, r.updatedAt] := by
  have hratingchars : ∀ c ∈ (toString r.rating).data, ¬c = ',' ∧ ¬c = '"' := by
    obtain ⟨hlo, hhi⟩ := hrating
    have hcases : r.rating = 1 ∨ r.rating = 2 ∨ r.rating = 3 ∨ r.rating = 4 ∨ r.rating = 5 := by
      omega
    rcases hcases with h | h | h | h | h <;> rw [h] <;> decide
  rw [parseCSVRecord, csvRow_data]
  rw [← escapeQuotes_eq_self r.id.data hid, ← escapeQuotes_eq_self r.customerId.data hcust,
    ← escapeQuotes_eq_self r.customerName.data hname,
    ← escapeQuotes_eq_self r.status.data hstatus,
    ← escapeQuotes_eq_self r.createdAt.data hcreated,
    ← escapeQuotes_eq_self r.updatedAt.data hupdated]
  rw [csvScan_quoted_field, csvScan_quoted_field, csvScan_quoted_field,
    csvScan_bare _ _ _ hratingchars, csvScan_quoted_field, csvScan_quoted_field,
    csvScan_quoted_field, csvScan_quoted_field, csvScan_quoted_last]
  simp [string_mk_data]

/-- Witness for C2 amended: a review whose title carries quotes and
whose comment carries a comma round-trips exactly. -/
theorem claim_C2_csv_roundtrip_witness :
    parseCSVRecord (csvRow ⟨"i1", "c1", "Alice", 5, "say \"hi\"", "x, y", "approved",
        "2023-01-01", "2023-01-02"⟩) =
      ["i1", "c1", "Alice", toString (5 : ℤ), "say \"hi\"", "x, y", "approved",
        "2023-01-01", "2023-01-02"] :=
  claim_C2_csv_roundtrip
    ⟨"i1", "c1", "Alice", 5, "say \"hi\"", "x, y", "approved", "2023-01-01", "2023-01-02"⟩
    (by decide) (by decide) (by decide) (by decide) (by decide) (by decide)
    ⟨by decide, by decide⟩

end CSS
